import Mathlib

/-!
# Verification of the KV store engine (`src/kv-store/kv-store.ts`)

Shallow embedding of the `KVStore` class: the in-memory data map and the
operations `set`, `get`, `delete`, `exists`, `keys`, `expire`, `ttl`,
`incr`, `decr`, `append`.  Persistence (disk sync, backups), logging,
timers and the hit/miss counters are elided: they do not affect the
key/entry semantics the theorems below are about.  Timestamps are `Int`
milliseconds (`Date.now()` values are passed in explicitly as `now`).
JavaScript number truthiness (`0` is falsy) is modelled explicitly where
the source relies on it (`ttlSeconds ? … : undefined`,
`entry.expiresAt && …`).
-/

namespace KV

/-- Stored values.  The source stores arbitrary `any` values; the claims
only exercise numbers, strings and booleans, so the embedding uses a
closed sum over those.  Numbers are modelled as `Int` (every value the
claims exercise is integral). -/
inductive Value where
  | vnum (n : Int)
  | vstr (s : String)
  | vbool (b : Bool)
  deriving DecidableEq, Repr

/-- `typeof value === 'object' ? 'object' : typeof value === 'number' ?
'number' : typeof value === 'boolean' ? 'boolean' : 'string'` from
`KVStore.set`, restricted to the modelled value shapes. -/
def typeName : Value → String
  | .vnum _ => "number"
  | .vstr _ => "string"
  | .vbool _ => "boolean"

/-- One character of `JSON.stringify` string escaping: quotes and
backslashes are escaped.  (Control-character escaping is elided; no claim
exercises it.) -/
def escapeChar (c : Char) : List Char :=
  if c = '"' ∨ c = '\\' then ['\\', c] else [c]

/-- `JSON.stringify(value)` for the modelled value shapes; only its
length is consumed (by `validateValue`). -/
def jsonStringify : Value → String
  | .vnum n => toString n
  | .vbool b => if b then "true" else "false"
  | .vstr s => "\"" ++ String.mk ((s.toList.map escapeChar).flatten) ++ "\""

/-- `KVEntry` from the source: `value`, `type`, `createdAt`,
`expiresAt?`. -/
structure KVEntry where
  value : Value
  type : String
  createdAt : Int
  expiresAt : Option Int
  deriving DecidableEq, Repr

/-- The configuration fields the modelled operations read
(`maxKeySize`, `maxValueSize`); the storage-mode / timer fields only
drive elided persistence. -/
structure KVStoreConfig where
  maxKeySize : Nat
  maxValueSize : Nat
  deriving DecidableEq, Repr

/-- The `KVStore` state: the `data : Map<string, KVEntry>` member,
modelled as an insertion-ordered association list (JavaScript `Map`
iteration order). -/
structure KVStore where
  data : List (String × KVEntry)
  deriving DecidableEq, Repr

/-- `Map.prototype.get`. -/
def mapGet (m : List (String × KVEntry)) (k : String) : Option KVEntry :=
  (m.find? (fun p => p.1 == k)).map (fun p => p.2)

/-- `Map.prototype.set`: replaces in place when the key is present
(keeping its position), appends otherwise. -/
def mapSet (m : List (String × KVEntry)) (k : String) (e : KVEntry) :
    List (String × KVEntry) :=
  if m.any (fun p => p.1 == k) then
    m.map (fun p => if p.1 == k then (k, e) else p)
  else
    m ++ [(k, e)]

/-- `Map.prototype.delete` (the resulting map). -/
def mapDelete (m : List (String × KVEntry)) (k : String) :
    List (String × KVEntry) :=
  m.filter (fun p => p.1 != k)

/-- JavaScript truthiness of a number: `0` is falsy, every other number
is truthy. -/
def numTruthy (n : Int) : Bool := n != 0

/-- The expiry test `entry.expiresAt && Date.now() > entry.expiresAt`
shared by `get`, `exists` and the cleanup sweep.  Note the strict `>`
and the falsiness of a zero timestamp. -/
def isExpired (e : KVEntry) (now : Int) : Bool :=
  match e.expiresAt with
  | none => false
  | some t => numTruthy t && decide (now > t)

/-- `validateKey`: throws iff the key is empty or longer than
`maxKeySize`; modelled as the boolean "does not throw". -/
def validKey (cfg : KVStoreConfig) (key : String) : Bool :=
  !(key.length == 0) && decide (key.length ≤ cfg.maxKeySize)

/-- `validateValue`: throws iff `JSON.stringify(value).length`
exceeds `maxValueSize`; modelled as the boolean "does not throw". -/
def validValue (cfg : KVStoreConfig) (v : Value) : Bool :=
  decide ((jsonStringify v).length ≤ cfg.maxValueSize)

/-- `ttlSeconds ? Date.now() + (ttlSeconds * 1000) : undefined` from
`KVStore.set` (a zero TTL is falsy and yields no expiry). -/
def computeExpiresAt (now : Int) (ttlSeconds : Option Int) : Option Int :=
  match ttlSeconds with
  | none => none
  | some t => if numTruthy t then some (now + t * 1000) else none

/-- `KVStore.set`.  Validation failures are caught by the source's
`try`/`catch` and reported as `false` with the map untouched; on
success the new entry overwrites any previous one. -/
def KVStore.set (cfg : KVStoreConfig) (s : KVStore) (now : Int)
    (key : String) (value : Value) (ttlSeconds : Option Int) :
    KVStore × Bool :=
  if validKey cfg key && validValue cfg value then
    (⟨mapSet s.data key
        { value := value
          type := typeName value
          createdAt := now
          expiresAt := computeExpiresAt now ttlSeconds }⟩, true)
  else
    (s, false)

/-- `KVStore.get`: returns the value, or `none` (= `undefined`) when the
key is missing or expired; lazily deletes an expired entry. -/
def KVStore.get (s : KVStore) (now : Int) (key : String) :
    KVStore × Option Value :=
  match mapGet s.data key with
  | none => (s, none)
  | some e =>
    if isExpired e now then (⟨mapDelete s.data key⟩, none)
    else (s, some e.value)

/-- `KVStore.exists`: like `get` but returns a boolean. -/
def KVStore.exists (s : KVStore) (now : Int) (key : String) :
    KVStore × Bool :=
  match mapGet s.data key with
  | none => (s, false)
  | some e =>
    if isExpired e now then (⟨mapDelete s.data key⟩, false)
    else (s, true)

/-- `KVStore.delete` (the `data.delete` effect and its boolean). -/
def KVStore.delete (s : KVStore) (key : String) : KVStore × Bool :=
  (⟨mapDelete s.data key⟩, s.data.any (fun p => p.1 == key))

/-- `KVStore.expire`: unconditionally overwrites `expiresAt` of any
physically present entry (no liveness check). -/
def KVStore.expire (s : KVStore) (now : Int) (key : String)
    (seconds : Int) : KVStore × Bool :=
  match mapGet s.data key with
  | none => (s, false)
  | some e =>
    (⟨mapSet s.data key { e with expiresAt := some (now + seconds * 1000) }⟩,
     true)

/-- `Math.ceil(a / b)` for integer `a` and positive integer `b`:
`⌈a/b⌉ = -⌊-a/b⌋`. -/
def jsCeilDiv (a b : Int) : Int := -(Int.fdiv (-a) b)

/-- `KVStore.ttl`: `-2` when the key is physically absent, `-1` when the
entry has no (or a falsy zero) `expiresAt`, otherwise
`Math.max(0, Math.ceil((expiresAt - now) / 1000))`.  The map is not
modified. -/
def KVStore.ttl (s : KVStore) (now : Int) (key : String) :
    KVStore × Int :=
  match mapGet s.data key with
  | none => (s, -2)
  | some e =>
    match e.expiresAt with
    | none => (s, -1)
    | some t =>
      if numTruthy t then (s, max 0 (jsCeilDiv (t - now) 1000))
      else (s, -1)

/-- `typeof current === 'number' ? current : 0` applied to a `get`
result. -/
def toNumber : Option Value → Int
  | some (Value.vnum n) => n
  | _ => 0

/-- `typeof current === 'string' ? current : ''` applied to a `get`
result. -/
def toStr : Option Value → String
  | some (Value.vstr s) => s
  | _ => ""

/-- `KVStore.incr`: `get`, coerce to number, add 1, `set` (with *no*
TTL), return the new value (even if the inner `set` failed
validation). -/
def KVStore.incr (cfg : KVStoreConfig) (s : KVStore) (now : Int)
    (key : String) : KVStore × Int :=
  let r1 := KVStore.get s now key
  let newValue := toNumber r1.2 + 1
  let r2 := KVStore.set cfg r1.1 now key (Value.vnum newValue) none
  (r2.1, newValue)

/-- `KVStore.decr`: symmetric to `incr` with `- 1`. -/
def KVStore.decr (cfg : KVStoreConfig) (s : KVStore) (now : Int)
    (key : String) : KVStore × Int :=
  let r1 := KVStore.get s now key
  let newValue := toNumber r1.2 - 1
  let r2 := KVStore.set cfg r1.1 now key (Value.vnum newValue) none
  (r2.1, newValue)

/-- `KVStore.append`: `get`, coerce to string, concatenate, `set` (with
no TTL), return the new length. -/
def KVStore.append (cfg : KVStoreConfig) (s : KVStore) (now : Int)
    (key : String) (value : String) : KVStore × Int :=
  let r1 := KVStore.get s now key
  let newValue := toStr r1.2 ++ value
  let r2 := KVStore.set cfg r1.1 now key (Value.vstr newValue) none
  (r2.1, Int.ofNat newValue.length)

/-! ## Glob pattern matching (`KVStore.keys`)

The source builds `new RegExp('^' + pattern.replace(/\*/g, '.*')
.replace(/\?/g, '.') + '$')` — with **no** escaping of other regex
metacharacters — and filters `data.keys()` by `regex.test`.  The
embedding mirrors the two replacements verbatim and interprets the
resulting regex text with a matcher for the fragment it can produce
from metacharacter-free patterns (literals, `.`, and `.*`); a pattern
whose translation falls outside that fragment is not modelled
(`KVStore.keys` returns `none` for it). -/

/-- `pattern.replace(/\*/g, '.*')`. -/
def replaceStar (cs : List Char) : List Char :=
  (cs.map (fun c => if c = '*' then ['.', '*'] else [c])).flatten

/-- `.replace(/\?/g, '.')`. -/
def replaceQuestion (cs : List Char) : List Char :=
  cs.map (fun c => if c = '?' then '.' else c)

/-- The full glob-to-regex translation of `KVStore.keys` (the `^`/`$`
anchoring is embodied in `reMatch` matching the whole key). -/
def translateGlobL (cs : List Char) : List Char :=
  replaceQuestion (replaceStar cs)

/-- A regex atom: a literal character or `.` (any character). -/
inductive RAtom where
  | lit (c : Char)
  | anyChar
  deriving DecidableEq, Repr

/-- A regex token: an atom, or an atom under a `*` quantifier. -/
inductive RTok where
  | once (a : RAtom)
  | star (a : RAtom)
  deriving DecidableEq, Repr

/-- Regex metacharacters (other than `*` and `?`) whose JavaScript
`RegExp` semantics the matcher does not model. -/
def patternMeta : List Char :=
  ['(', ')', '[', ']', '\x7b', '\x7d', '|', '^', '$', '\\', '+']

/-- All characters the regex-text parser refuses as a leading
character: the unmodelled metacharacters plus the quantifiers. -/
def regexMeta : List Char := patternMeta ++ ['*', '?']

/-- Parses the translated regex text into tokens; `none` when the text
uses a construct outside the modelled fragment. -/
def parseRegex (cs : List Char) : Option (List RTok) :=
  match cs with
  | [] => some []
  | c :: rest =>
    if c ∈ regexMeta then none
    else
      let a : RAtom := if c = '.' then RAtom.anyChar else RAtom.lit c
      match rest with
      | '*' :: rest2 => (parseRegex rest2).map (fun ts => RTok.star a :: ts)
      | [] => some [RTok.once a]
      | c2 :: rest2 =>
          (parseRegex (c2 :: rest2)).map (fun ts => RTok.once a :: ts)

/-- Whether a regex atom matches one character. -/
def atomMatch (a : RAtom) (c : Char) : Bool :=
  match a with
  | .lit l => l == c
  | .anyChar => true

/-- Anchored (whole-string) matching of a token list, i.e.
`new RegExp('^' + text + '$').test(key)` for the modelled fragment. -/
def reMatch (ts : List RTok) (ks : List Char) : Bool :=
  match ts, ks with
  | [], [] => true
  | [], _ :: _ => false
  | RTok.once _ :: _, [] => false
  | RTok.once a :: ts2, k :: ks2 => atomMatch a k && reMatch ts2 ks2
  | RTok.star _ :: ts2, [] => reMatch ts2 []
  | RTok.star a :: ts2, k :: ks2 =>
      reMatch ts2 (k :: ks2) || (atomMatch a k && reMatch (RTok.star a :: ts2) ks2)
termination_by (ks.length, ts.length)

/-- `KVStore.keys`: returns **all** physically present keys when the
pattern is absent or empty (an empty string is falsy), otherwise the
keys the translated regex accepts.  No expiry filtering and no map
mutation happen.  `none` marks a pattern outside the modelled regex
fragment. -/
def KVStore.keys (s : KVStore) (pattern : Option String) :
    Option (List String) :=
  let allKeys := s.data.map (fun p => p.1)
  match pattern with
  | none => some allKeys
  | some p =>
    if p == "" then some allKeys
    else
      match parseRegex (translateGlobL p.toList) with
      | none => none
      | some ts => some (allKeys.filter (fun k => reMatch ts k.toList))

/-- The token list the translation produces from a metacharacter-free
glob pattern: `*` becomes `.*`, `?` becomes `.`, a literal `.` stays a
wildcard (nothing is escaped), every other character is a literal. -/
def globToks : List Char → List RTok
  | [] => []
  | c :: cs =>
    if c = '*' then RTok.star RAtom.anyChar :: globToks cs
    else if c = '?' then RTok.once RAtom.anyChar :: globToks cs
    else RTok.once (if c = '.' then RAtom.anyChar else RAtom.lit c) :: globToks cs

/-- Direct glob semantics of the *unescaped* translation: `*` matches
any run, and both `?` and a literal `.` match any single character. -/
def dotGlobMatch (ps ks : List Char) : Bool :=
  match ps, ks with
  | [], [] => true
  | [], _ :: _ => false
  | '*' :: ps2, [] => dotGlobMatch ps2 []
  | '*' :: ps2, k :: ks2 =>
      dotGlobMatch ps2 (k :: ks2) || dotGlobMatch ('*' :: ps2) ks2
  | _ :: _, [] => false
  | p :: ps2, k :: ks2 =>
      (p == '?' || p == '.' || p == k) && dotGlobMatch ps2 ks2
termination_by (ks.length, ps.length)

/-- Modelled from the spec's glob-matching sentence: `*` and `?` are
wildcards and — because the spec says metacharacters are *escaped*
first — every other pattern character, `.` included, matches only
itself. -/
def specGlobMatch (ps ks : List Char) : Bool :=
  match ps, ks with
  | [], [] => true
  | [], _ :: _ => false
  | '*' :: ps2, [] => specGlobMatch ps2 []
  | '*' :: ps2, k :: ks2 =>
      specGlobMatch ps2 (k :: ks2) || specGlobMatch ('*' :: ps2) ks2
  | _ :: _, [] => false
  | p :: ps2, k :: ks2 =>
      (p == '?' || p == k) && specGlobMatch ps2 ks2
termination_by (ks.length, ps.length)

/-! ## Concrete fixtures for witnesses and counterexamples -/

/-- The default size limits of the source constructor
(`maxKeySize: 1024`, `maxValueSize: 1024 * 1024`). -/
def defaultConfig : KVStoreConfig :=
  { maxKeySize := 1024, maxValueSize := 1048576 }

/-- An entry carrying a TTL: written at `0` with `expiresAt = 1000`. -/
def demoEntry : KVEntry :=
  { value := Value.vnum 7, type := "number", createdAt := 0
    expiresAt := some 1000 }

/-- A store holding only `demoEntry` under key `"k"`. -/
def demoStore : KVStore := ⟨[("k", demoEntry)]⟩

/-- A live numeric entry with both a TTL and an old `createdAt`. -/
def liveEntry : KVEntry :=
  { value := Value.vnum 1, type := "number", createdAt := 0
    expiresAt := some 999999 }

/-! ## Basic lemmas about the map embedding -/

theorem mapGet_nil (k : String) : mapGet [] k = none := rfl

theorem mapGet_cons (p : String × KVEntry) (rest : List (String × KVEntry))
    (k : String) :
    mapGet (p :: rest) k = if p.1 == k then some p.2 else mapGet rest k := by
  by_cases h : p.1 == k <;> simp [mapGet, List.find?_cons, h]

theorem mapGet_replace_self (m : List (String × KVEntry)) (k : String)
    (e : KVEntry) (h : m.any (fun p => p.1 == k) = true) :
    mapGet (m.map (fun p => if p.1 == k then (k, e) else p)) k = some e := by
  induction m with
  | nil => simp at h
  | cons p rest ih =>
    obtain ⟨a, b⟩ := p
    by_cases hp : a = k
    · subst hp
      simp [mapGet_cons]
    · simp only [List.any_cons] at h
      have h2 : (rest.any fun p => p.1 == k) = true := by
        simpa [hp] using h
      simpa [mapGet_cons, hp] using ih h2

theorem mapGet_append_self (m : List (String × KVEntry)) (k : String)
    (e : KVEntry) (h : m.any (fun p => p.1 == k) = false) :
    mapGet (m ++ [(k, e)]) k = some e := by
  induction m with
  | nil => simp [mapGet_cons]
  | cons p rest ih =>
    simp only [List.any_cons, Bool.or_eq_false_iff] at h
    simp only [List.cons_append, mapGet_cons, h.1, if_false]
    exact ih h.2

/-- After `Map.set`, `Map.get` of the same key returns the new entry. -/
theorem mapGet_mapSet_self (m : List (String × KVEntry)) (k : String)
    (e : KVEntry) : mapGet (mapSet m k e) k = some e := by
  unfold mapSet
  cases h : m.any (fun p => p.1 == k)
  · simp only [h, Bool.false_eq_true, if_false]
    exact mapGet_append_self m k e h
  · simp only [h, if_true]
    exact mapGet_replace_self m k e h

/-- A successful `set` call: the result flag is true and the written
entry is retrievable. -/
theorem set_success (cfg : KVStoreConfig) (s : KVStore) (now : Int)
    (key : String) (v : Value) (ttl : Option Int)
    (hk : validKey cfg key = true) (hv : validValue cfg v = true) :
    (KVStore.set cfg s now key v ttl).2 = true ∧
    mapGet (KVStore.set cfg s now key v ttl).1.data key =
      some { value := v, type := typeName v, createdAt := now
             expiresAt := computeExpiresAt now ttl } := by
  unfold KVStore.set
  rw [hk, hv]
  simp [mapGet_mapSet_self]

/-- A `set` call that fails validation leaves the store untouched and
returns `false`. -/
theorem set_failure (cfg : KVStoreConfig) (s : KVStore) (now : Int)
    (key : String) (v : Value) (ttl : Option Int)
    (h : (validKey cfg key && validValue cfg v) = false) :
    KVStore.set cfg s now key v ttl = (s, false) := by
  unfold KVStore.set
  rw [h]
  simp

/-- `get` on a present, non-expired entry returns its value and leaves
the store untouched. -/
theorem get_live (s : KVStore) (now : Int) (key : String) (e : KVEntry)
    (he : mapGet s.data key = some e) (hl : isExpired e now = false) :
    KVStore.get s now key = (s, some e.value) := by
  unfold KVStore.get
  rw [he]
  simp [hl]

/-- `get` on a present but expired entry deletes it and returns
`none`. -/
theorem get_expired (s : KVStore) (now : Int) (key : String) (e : KVEntry)
    (he : mapGet s.data key = some e) (hx : isExpired e now = true) :
    KVStore.get s now key = (⟨mapDelete s.data key⟩, none) := by
  unfold KVStore.get
  rw [he]
  simp [hx]

/-- `exists` on a present, non-expired entry. -/
theorem exists_live (s : KVStore) (now : Int) (key : String) (e : KVEntry)
    (he : mapGet s.data key = some e) (hl : isExpired e now = false) :
    KVStore.exists s now key = (s, true) := by
  unfold KVStore.exists
  rw [he]
  simp [hl]

/-- `exists` on a present but expired entry. -/
theorem exists_expired (s : KVStore) (now : Int) (key : String) (e : KVEntry)
    (he : mapGet s.data key = some e) (hx : isExpired e now = true) :
    KVStore.exists s now key = (⟨mapDelete s.data key⟩, false) := by
  unfold KVStore.exists
  rw [he]
  simp [hx]

/-- An entry whose `expiresAt` lies strictly beyond `now` (or is absent
or the falsy `0`) is not expired. -/
theorem isExpired_false_of_le (e : KVEntry) (now : Int)
    (h : ∀ t, e.expiresAt = some t → now ≤ t) :
    isExpired e now = false := by
  unfold isExpired
  cases hx : e.expiresAt with
  | none => rfl
  | some t =>
    have := h t hx
    simp [numTruthy]
    omega

/-! ## Lemmas: the glob-to-regex translation and the matcher

`parseRegex (translateGlobL ps)` succeeds on every pattern free of the
unmodelled metacharacters and produces `globToks ps`; the token matcher
then agrees with the direct glob semantics `dotGlobMatch`. -/

theorem translateGlobL_cons (c : Char) (cs : List Char) :
    translateGlobL (c :: cs) =
      (if c = '*' then ['.', '*'] else if c = '?' then ['.'] else [c]) ++
        translateGlobL cs := by
  by_cases h1 : c = '*'
  · subst h1
    simp [translateGlobL, replaceStar, replaceQuestion]
  · by_cases h2 : c = '?'
    · subst h2
      simp [translateGlobL, replaceStar, replaceQuestion]
    · simp [translateGlobL, replaceStar, replaceQuestion, h1, h2]

theorem translateGlobL_head_ne_star (cs : List Char) :
    (translateGlobL cs).head? ≠ some '*' := by
  cases cs with
  | nil => simp [translateGlobL, replaceStar, replaceQuestion]
  | cons c cs2 =>
    rw [translateGlobL_cons]
    by_cases h1 : c = '*'
    · subst h1; simp
    · by_cases h2 : c = '?'
      · subst h2; simp
      · simp [h1, h2]

theorem parseRegex_cons_star (c : Char) (rest : List Char)
    (hc : c ∉ regexMeta) :
    parseRegex (c :: '*' :: rest) =
      (parseRegex rest).map
        (fun ts =>
          RTok.star (if c = '.' then RAtom.anyChar else RAtom.lit c) :: ts) := by
  conv_lhs => unfold parseRegex
  rw [if_neg hc]
  rfl

theorem parseRegex_singleton (c : Char) (hc : c ∉ regexMeta) :
    parseRegex [c] =
      some [RTok.once (if c = '.' then RAtom.anyChar else RAtom.lit c)] := by
  conv_lhs => unfold parseRegex
  rw [if_neg hc]

theorem parseRegex_cons_no_star (c d : Char) (rest : List Char)
    (hc : c ∉ regexMeta) (hd : d ≠ '*') :
    parseRegex (c :: d :: rest) =
      (parseRegex (d :: rest)).map
        (fun ts =>
          RTok.once (if c = '.' then RAtom.anyChar else RAtom.lit c) :: ts) := by
  conv_lhs => unfold parseRegex
  rw [if_neg hc]
  dsimp only []
  generalize (if c = '.' then RAtom.anyChar else RAtom.lit c) = a
  split
  · rename_i rest2 h
    rw [List.cons.injEq] at h
    exact absurd h.1 hd
  · rename_i h
    simp at h
  · rename_i c2 rest2 h
    rw [h]

theorem parseRegex_translateGlobL (ps : List Char)
    (hp : ∀ c ∈ ps, c ∉ patternMeta) :
    parseRegex (translateGlobL ps) = some (globToks ps) := by
  induction ps with
  | nil => rfl
  | cons c cs ih =>
    have hc : c ∉ patternMeta := hp c (List.mem_cons_self c cs)
    have ih2 := ih (fun x hx => hp x (List.mem_cons_of_mem c hx))
    have hdot : ('.' : Char) ∉ regexMeta := by decide
    rw [translateGlobL_cons]
    by_cases h1 : c = '*'
    · subst h1
      rw [if_pos rfl]
      rw [show ((['.', '*'] : List Char) ++ translateGlobL cs) =
        '.' :: '*' :: translateGlobL cs from rfl]
      rw [parseRegex_cons_star '.' (translateGlobL cs) hdot, ih2]
      simp [globToks]
    · by_cases h2 : c = '?'
      · subst h2
        rw [if_neg h1, if_pos rfl]
        cases hT : translateGlobL cs with
        | nil =>
          rw [hT] at ih2
          have h3 : globToks cs = [] := by
            have h4 : (some [] : Option (List RTok)) = some (globToks cs) := ih2
            simpa using h4.symm
          rw [show ((['.'] : List Char) ++ []) = ['.'] from rfl,
            parseRegex_singleton '.' hdot]
          simp [globToks, h3]
        | cons d T2 =>
          have hd : d ≠ '*' := by
            have h4 := translateGlobL_head_ne_star cs
            rw [hT] at h4
            simpa using h4
          rw [hT] at ih2
          rw [show ((['.'] : List Char) ++ (d :: T2)) = '.' :: d :: T2 from rfl,
            parseRegex_cons_no_star '.' d T2 hdot hd, ih2]
          simp [globToks]
      · rw [if_neg h1, if_neg h2]
        have hcr : c ∉ regexMeta := by
          intro hmem
          simp only [regexMeta, List.mem_append] at hmem
          rcases hmem with hmem | hmem
          · exact hc hmem
          · simp at hmem
            rcases hmem with h | h
            · exact h1 h
            · exact h2 h
        cases hT : translateGlobL cs with
        | nil =>
          rw [hT] at ih2
          have h3 : globToks cs = [] := by
            have h4 : (some [] : Option (List RTok)) = some (globToks cs) := ih2
            simpa using h4.symm
          rw [show (([c] : List Char) ++ []) = [c] from rfl,
            parseRegex_singleton c hcr]
          simp [globToks, h1, h2, h3]
        | cons d T2 =>
          have hd : d ≠ '*' := by
            have h4 := translateGlobL_head_ne_star cs
            rw [hT] at h4
            simpa using h4
          rw [hT] at ih2
          rw [show (([c] : List Char) ++ (d :: T2)) = c :: d :: T2 from rfl,
            parseRegex_cons_no_star c d T2 hcr hd, ih2]
          simp [globToks, h1, h2]

theorem reMatch_globToks (ps ks : List Char) :
    reMatch (globToks ps) ks = dotGlobMatch ps ks := by
  induction ps, ks using dotGlobMatch.induct
  case case5 p ps2 hne =>
    simp only [globToks, if_neg hne]
    split <;> simp [reMatch, dotGlobMatch, hne]
  case case6 p ps2 k ks2 hne ih =>
    simp only [globToks, if_neg hne]
    by_cases h2 : p = '?'
    · subst h2
      simp [reMatch, atomMatch, dotGlobMatch, ih]
    · rw [if_neg h2]
      by_cases h3 : p = '.'
      · subst h3
        simp [reMatch, atomMatch, dotGlobMatch, ih]
      · have e1 : (p == '?') = false := beq_eq_false_iff_ne.mpr h2
        have e2 : (p == '.') = false := beq_eq_false_iff_ne.mpr h3
        simp [reMatch, atomMatch, dotGlobMatch, ih, e1, e2, h3, hne]
  all_goals simp_all [globToks, reMatch, dotGlobMatch, atomMatch]

/-- What `incr` stores when the inner `set` passes validation: a fresh
entry with `createdAt = now` and no `expiresAt`. -/
theorem incr_stores (cfg : KVStoreConfig) (s : KVStore) (now : Int)
    (key : String) (hk : validKey cfg key = true)
    (hv : validValue cfg
      (Value.vnum (toNumber (KVStore.get s now key).2 + 1)) = true) :
    mapGet (KVStore.incr cfg s now key).1.data key =
      some { value := Value.vnum (toNumber (KVStore.get s now key).2 + 1)
             type := "number", createdAt := now, expiresAt := none } := by
  simp only [KVStore.incr]
  exact (set_success cfg (KVStore.get s now key).1 now key
    (Value.vnum (toNumber (KVStore.get s now key).2 + 1)) none hk hv).2

/-- What `decr` stores when the inner `set` passes validation. -/
theorem decr_stores (cfg : KVStoreConfig) (s : KVStore) (now : Int)
    (key : String) (hk : validKey cfg key = true)
    (hv : validValue cfg
      (Value.vnum (toNumber (KVStore.get s now key).2 - 1)) = true) :
    mapGet (KVStore.decr cfg s now key).1.data key =
      some { value := Value.vnum (toNumber (KVStore.get s now key).2 - 1)
             type := "number", createdAt := now, expiresAt := none } := by
  simp only [KVStore.decr]
  exact (set_success cfg (KVStore.get s now key).1 now key
    (Value.vnum (toNumber (KVStore.get s now key).2 - 1)) none hk hv).2

/-- What `append` stores when the inner `set` passes validation. -/
theorem append_stores (cfg : KVStoreConfig) (s : KVStore) (now : Int)
    (key : String) (str : String) (hk : validKey cfg key = true)
    (hv : validValue cfg
      (Value.vstr (toStr (KVStore.get s now key).2 ++ str)) = true) :
    mapGet (KVStore.append cfg s now key str).1.data key =
      some { value := Value.vstr (toStr (KVStore.get s now key).2 ++ str)
             type := "string", createdAt := now, expiresAt := none } := by
  simp only [KVStore.append]
  exact (set_success cfg (KVStore.get s now key).1 now key
    (Value.vstr (toStr (KVStore.get s now key).2 ++ str)) none hk hv).2

/-! ## Claims -/

/-- C7: for every valid (key, value) pair, `set` with no TTL followed by
`get` returns the same value, and `exists` returns true — at any read
time, since no expiry is stored. -/
theorem C7_set_then_get (cfg : KVStoreConfig) (s : KVStore)
    (now now2 : Int) (key : String) (v : Value)
    (hk : validKey cfg key = true) (hv : validValue cfg v = true) :
    (KVStore.set cfg s now key v none).2 = true ∧
    (KVStore.get (KVStore.set cfg s now key v none).1 now2 key).2 = some v ∧
    (KVStore.exists (KVStore.set cfg s now key v none).1 now2 key).2 = true := by
  obtain ⟨hflag, hget⟩ := set_success cfg s now key v none hk hv
  have hlive : isExpired
      { value := v, type := typeName v, createdAt := now
        expiresAt := computeExpiresAt now none } now2 = false := rfl
  refine ⟨hflag, ?_, ?_⟩
  · rw [get_live _ now2 key _ hget hlive]
  · rw [exists_live _ now2 key _ hget hlive]

/-- Witness for C7 at `defaultConfig`, key `"k"`, value `7`. -/
theorem C7_set_then_get_witness :
    validKey defaultConfig "k" = true ∧
    validValue defaultConfig (Value.vnum 7) = true ∧
    (KVStore.get (KVStore.set defaultConfig ⟨[]⟩ 0 "k" (Value.vnum 7) none).1
      100 "k").2 = some (Value.vnum 7) :=
  ⟨by decide, by decide,
   (C7_set_then_get defaultConfig ⟨[]⟩ 0 100 "k" (Value.vnum 7)
     (by decide) (by decide)).2.1⟩

/-- C8: a `set` whose key is empty or over-long, or whose serialized
value is over-size, returns the structured failure flag `false` (no
fault escapes) and leaves the store mapping unchanged. -/
theorem C8_invalid_set_rejected (cfg : KVStoreConfig) (s : KVStore)
    (now : Int) (key : String) (v : Value) (ttl : Option Int)
    (h : key = "" ∨ cfg.maxKeySize < key.length ∨
         cfg.maxValueSize < (jsonStringify v).length) :
    KVStore.set cfg s now key v ttl = (s, false) := by
  apply set_failure
  rcases h with h | h | h
  · subst h
    simp [validKey]
  · have hkf : validKey cfg key = false := by
      unfold validKey
      simp [decide_eq_false (Nat.not_le.mpr h)]
    simp [hkf]
  · have hvf : validValue cfg v = false := by
      unfold validValue
      simp [decide_eq_false (Nat.not_le.mpr h)]
    simp [hvf]

/-- Witness for C8 at the empty key. -/
theorem C8_invalid_set_rejected_witness :
    KVStore.set defaultConfig ⟨[]⟩ 0 "" (Value.vnum 7) none = (⟨[]⟩, false) :=
  C8_invalid_set_rejected defaultConfig ⟨[]⟩ 0 "" (Value.vnum 7) none
    (Or.inl rfl)

/-- C10: `expire` on a physically present but already expired entry
returns true and overwrites `expiresAt` with `now + seconds * 1000`, so
with `seconds > 0` the stale value becomes observable again through
`get`/`exists`: expired-but-unswept entries are resurrected. -/
theorem C10_expire_resurrects (s : KVStore) (now : Int) (key : String)
    (seconds : Int) (e : KVEntry)
    (he : mapGet s.data key = some e)
    (_hx : isExpired e now = true)
    (hs : 0 < seconds) :
    (KVStore.expire s now key seconds).2 = true ∧
    mapGet (KVStore.expire s now key seconds).1.data key =
      some { e with expiresAt := some (now + seconds * 1000) } ∧
    (KVStore.get (KVStore.expire s now key seconds).1 now key).2 =
      some e.value ∧
    (KVStore.exists (KVStore.expire s now key seconds).1 now key).2 =
      true := by
  have hexp : KVStore.expire s now key seconds =
      (⟨mapSet s.data key
          { e with expiresAt := some (now + seconds * 1000) }⟩, true) := by
    unfold KVStore.expire
    rw [he]
  have hget : mapGet (KVStore.expire s now key seconds).1.data key =
      some { e with expiresAt := some (now + seconds * 1000) } := by
    rw [hexp]
    exact mapGet_mapSet_self ..
  have hpos : 0 < seconds * 1000 := mul_pos hs (by norm_num)
  have hlive : isExpired
      { e with expiresAt := some (now + seconds * 1000) } now = false := by
    apply isExpired_false_of_le
    intro t ht
    simp only [Option.some.injEq] at ht
    omega
  refine ⟨by rw [hexp], hget, ?_, ?_⟩
  · rw [get_live _ now key _ hget hlive]
  · rw [exists_live _ now key _ hget hlive]

/-- Witness for C10: the entry under `"k"` expired at 1000, yet at time
5000 `expire` succeeds and `get` sees the old value again. -/
theorem C10_expire_resurrects_witness :
    isExpired demoEntry 5000 = true ∧
    (KVStore.expire demoStore 5000 "k" 30).2 = true ∧
    (KVStore.get (KVStore.expire demoStore 5000 "k" 30).1 5000 "k").2 =
      some demoEntry.value := by
  have h := C10_expire_resurrects demoStore 5000 "k" 30 demoEntry
    (by decide) (by decide) (by decide)
  exact ⟨by decide, h.1, h.2.2.1⟩

/-- C1 counterexample: the entry under `"k"` is physically present but
expired at `now = 5000`, yet `ttl` returns `0` — not the claimed `-2` —
and removes nothing. -/
theorem C1_expired_ttl_counterexample :
    isExpired demoEntry 5000 = true ∧
    KVStore.ttl demoStore 5000 "k" = (demoStore, 0) ∧
    ((0 : Int) ≠ -2) := by
  decide

/-- C1 as amended: `ttl` returns `-2` **iff** the key is physically
absent (an expired but unswept entry is not treated as absent and is
not removed — the store is returned untouched); `-1` for an entry
without `expiresAt` (or with the falsy `expiresAt = 0`); otherwise
`max 0 ⌈(expiresAt - now) / 1000⌉`, which is `0` (not `-2`) once the
entry has expired. -/
theorem C1_ttl_semantics (s : KVStore) (now : Int) (key : String) :
    (KVStore.ttl s now key).1 = s ∧
    ((KVStore.ttl s now key).2 = -2 ↔ mapGet s.data key = none) ∧
    (∀ e, mapGet s.data key = some e → e.expiresAt = none →
      (KVStore.ttl s now key).2 = -1) ∧
    (∀ e t, mapGet s.data key = some e → e.expiresAt = some t → t ≠ 0 →
      (KVStore.ttl s now key).2 = max 0 (jsCeilDiv (t - now) 1000)) ∧
    (∀ e t, mapGet s.data key = some e → e.expiresAt = some t → t ≠ 0 →
      t < now → (KVStore.ttl s now key).2 = 0) := by
  cases hm : mapGet s.data key with
  | none =>
    have hr : KVStore.ttl s now key = (s, -2) := by
      unfold KVStore.ttl
      rw [hm]
    rw [hr]
    exact ⟨rfl, by simp, by simp, by simp, by simp⟩
  | some e =>
    cases hx : e.expiresAt with
    | none =>
      have hr : KVStore.ttl s now key = (s, -1) := by
        unfold KVStore.ttl
        rw [hm]
        simp [hx]
      rw [hr]
      refine ⟨rfl, iff_of_false (by norm_num) (by simp), fun _ _ _ => rfl,
        ?_, ?_⟩
      · intro e2 u h1 h2 _
        injection h1 with h1
        subst h1
        rw [hx] at h2
        simp at h2
      · intro e2 u h1 h2 _ _
        injection h1 with h1
        subst h1
        rw [hx] at h2
        simp at h2
    | some t =>
      by_cases ht0 : t = 0
      · subst ht0
        have hr : KVStore.ttl s now key = (s, -1) := by
          unfold KVStore.ttl
          rw [hm]
          simp [hx, numTruthy]
        rw [hr]
        refine ⟨rfl, iff_of_false (by norm_num) (by simp), fun _ _ _ => rfl,
          ?_, ?_⟩
        · intro e2 u h1 h2 hu0
          injection h1 with h1
          subst h1
          rw [hx] at h2
          injection h2 with h2
          exact absurd h2.symm hu0
        · intro e2 u h1 h2 hu0 _
          injection h1 with h1
          subst h1
          rw [hx] at h2
          injection h2 with h2
          exact absurd h2.symm hu0
      · have hr : KVStore.ttl s now key =
            (s, max 0 (jsCeilDiv (t - now) 1000)) := by
          unfold KVStore.ttl
          rw [hm]
          simp [hx, numTruthy, ht0]
        rw [hr]
        have hge : (0 : Int) ≤ max 0 (jsCeilDiv (t - now) 1000) :=
          le_max_left 0 _
        refine ⟨rfl, iff_of_false (by omega) (by simp), ?_, ?_, ?_⟩
        · intro e2 h1 h2
          injection h1 with h1
          subst h1
          rw [hx] at h2
          simp at h2
        · intro e2 u h1 h2 _
          injection h1 with h1
          subst h1
          rw [hx] at h2
          injection h2 with h2
          subst h2
          rfl
        · intro e2 u h1 h2 _ hlt
          injection h1 with h1
          subst h1
          rw [hx] at h2
          injection h2 with h2
          subst h2
          have hfd : 0 ≤ Int.fdiv (-(t - now)) 1000 :=
            Int.fdiv_nonneg (by omega) (by norm_num)
          have hle : jsCeilDiv (t - now) 1000 ≤ 0 := by
            unfold jsCeilDiv
            omega
          exact max_eq_left hle

/-- Witness for C1 (amended): the expired-entry case of `demoStore` at
time 5000. -/
theorem C1_ttl_semantics_witness :
    (KVStore.ttl demoStore 5000 "k").1 = demoStore ∧
    (KVStore.ttl demoStore 5000 "k").2 = 0 := by
  have h := C1_ttl_semantics demoStore 5000 "k"
  exact ⟨h.1, h.2.2.2.2 demoEntry 1000 (by decide) rfl (by decide) (by decide)⟩

/-- C4 counterexample: the claim calls the boundary instant
`expiresAt = now` expired, but the source's strict `Date.now() >
expiresAt` keeps the entry live there: `get` returns the value, `exists`
returns true, and nothing is removed. -/
theorem C4_boundary_counterexample :
    demoEntry.expiresAt = some 1000 ∧
    KVStore.get demoStore 1000 "k" = (demoStore, some (Value.vnum 7)) ∧
    KVStore.exists demoStore 1000 "k" = (demoStore, true) := by
  decide

/-- C4 as amended: an entry is treated as expired by `get`/`exists`
(not-found result plus removal) exactly when its `expiresAt` is nonzero
and *strictly* less than `now`; at the boundary `expiresAt = now`, with
`expiresAt = 0` (falsy), or with no `expiresAt`, the entry is served
normally. -/
theorem C4_lazy_expiration (s : KVStore) (now : Int) (key : String)
    (e : KVEntry) (he : mapGet s.data key = some e) :
    (∀ t, e.expiresAt = some t → t ≠ 0 → t < now →
      KVStore.get s now key = (⟨mapDelete s.data key⟩, none) ∧
      KVStore.exists s now key = (⟨mapDelete s.data key⟩, false)) ∧
    (∀ t, e.expiresAt = some t → now ≤ t →
      KVStore.get s now key = (s, some e.value) ∧
      KVStore.exists s now key = (s, true)) ∧
    (e.expiresAt = some 0 →
      KVStore.get s now key = (s, some e.value) ∧
      KVStore.exists s now key = (s, true)) ∧
    (e.expiresAt = none →
      KVStore.get s now key = (s, some e.value) ∧
      KVStore.exists s now key = (s, true)) := by
  refine ⟨?_, ?_, ?_, ?_⟩
  · intro t ht ht0 htn
    have hx : isExpired e now = true := by
      unfold isExpired
      rw [ht]
      simp [numTruthy, ht0]
      omega
    exact ⟨get_expired s now key e he hx, exists_expired s now key e he hx⟩
  · intro t ht htn
    have hl : isExpired e now = false := by
      apply isExpired_false_of_le
      intro u hu
      rw [ht] at hu
      injection hu with h
      omega
    exact ⟨get_live s now key e he hl, exists_live s now key e he hl⟩
  · intro ht
    have hl : isExpired e now = false := by
      unfold isExpired
      rw [ht]
      simp [numTruthy]
    exact ⟨get_live s now key e he hl, exists_live s now key e he hl⟩
  · intro ht
    have hl : isExpired e now = false := by
      unfold isExpired
      rw [ht]
    exact ⟨get_live s now key e he hl, exists_live s now key e he hl⟩

/-- Witness for C4 (amended) at the strict-past case and the boundary
case of `demoStore`. -/
theorem C4_lazy_expiration_witness :
    KVStore.get demoStore 1001 "k" = (⟨[]⟩, none) ∧
    KVStore.get demoStore 1000 "k" = (demoStore, some (Value.vnum 7)) := by
  have h1 := ((C4_lazy_expiration demoStore 1001 "k" demoEntry (by decide)).1
    1000 rfl (by decide) (by decide)).1
  have h2 := ((C4_lazy_expiration demoStore 1000 "k" demoEntry (by decide)).2.1
    1000 rfl (by decide)).1
  exact ⟨by simpa using h1, by simpa using h2⟩

/-- C5 counterexample: a negative TTL is truthy in JavaScript, so
`set` with `ttl = -5` at time 10000 stores `expiresAt = 5000`, an
already-past instant — the claim says a negative TTL must store no
expiration. -/
theorem C5_negative_ttl_counterexample :
    (KVStore.set defaultConfig ⟨[]⟩ 10000 "k" (Value.vnum 7)
        (some (-5))).1.data =
      [("k", { value := Value.vnum 7, type := "number", createdAt := 10000
               expiresAt := some 5000 })] ∧
    ((5000 : Int) < 10000) := by
  decide

/-- C5 as amended: a successful `set` stores
`expiresAt = now + ttl * 1000` exactly when a *nonzero* TTL is provided
(zero is falsy and behaves like no TTL); a negative TTL therefore stores
an already-past `expiresAt` rather than none. -/
theorem C5_set_expiry (cfg : KVStoreConfig) (s : KVStore) (now : Int)
    (key : String) (v : Value) (ttl : Option Int)
    (hk : validKey cfg key = true) (hv : validValue cfg v = true) :
    ∃ e, mapGet (KVStore.set cfg s now key v ttl).1.data key = some e ∧
      e.value = v ∧
      (∀ t, ttl = some t → t ≠ 0 → e.expiresAt = some (now + t * 1000)) ∧
      ((ttl = none ∨ ttl = some 0) → e.expiresAt = none) ∧
      (∀ t, ttl = some t → t < 0 → ∃ u, e.expiresAt = some u ∧ u < now) := by
  obtain ⟨-, hget⟩ := set_success cfg s now key v ttl hk hv
  refine ⟨_, hget, rfl, ?_, ?_, ?_⟩
  · intro t ht ht0
    subst ht
    simp [computeExpiresAt, numTruthy, ht0]
  · rintro (rfl | rfl) <;> simp [computeExpiresAt, numTruthy]
  · intro t ht htneg
    subst ht
    have ht0 : t ≠ 0 := ne_of_lt htneg
    refine ⟨now + t * 1000, ?_, ?_⟩
    · simp [computeExpiresAt, numTruthy, ht0]
    · have hm : t * 1000 < 0 := mul_neg_of_neg_of_pos htneg (by norm_num)
      omega

/-- Witness for C5 (amended) at TTL `-5`. -/
theorem C5_set_expiry_witness :
    ∃ e, mapGet (KVStore.set defaultConfig ⟨[]⟩ 10000 "k" (Value.vnum 7)
        (some (-5))).1.data "k" = some e ∧
      ∃ u, e.expiresAt = some u ∧ u < 10000 := by
  obtain ⟨e, hget, -, -, -, hneg⟩ :=
    C5_set_expiry defaultConfig ⟨[]⟩ 10000 "k" (Value.vnum 7) (some (-5))
      (by decide) (by decide)
  exact ⟨e, hget, hneg (-5) rfl (by decide)⟩

/-- C6 counterexample: `incr` on a live entry that carries
`expiresAt = 999999` and `createdAt = 0` does not mutate it in place:
the resulting entry has `expiresAt = none` and `createdAt = 10`, so
fields other than `value` are changed, contrary to the claim. -/
theorem C6_inplace_counterexample :
    liveEntry.expiresAt = some 999999 ∧
    (KVStore.incr defaultConfig ⟨[("k", liveEntry)]⟩ 10 "k").1.data =
      [("k", { value := Value.vnum 2, type := "number", createdAt := 10
               expiresAt := none })] := by
  decide

/-- C6 as amended: `incr`, `decr` and `append` overwrite the entry via
`set` with *no* TTL: whenever the inner `set` passes validation, the
entry stored under the key afterwards has `createdAt = now` and
`expiresAt = none` — any previous TTL is dropped rather than
preserved. -/
theorem C6_read_modify_overwrite (cfg : KVStoreConfig) (s : KVStore)
    (now : Int) (key : String) (hk : validKey cfg key = true) :
    (validValue cfg
        (Value.vnum (toNumber (KVStore.get s now key).2 + 1)) = true →
      mapGet (KVStore.incr cfg s now key).1.data key =
        some { value := Value.vnum (toNumber (KVStore.get s now key).2 + 1)
               type := "number", createdAt := now, expiresAt := none }) ∧
    (validValue cfg
        (Value.vnum (toNumber (KVStore.get s now key).2 - 1)) = true →
      mapGet (KVStore.decr cfg s now key).1.data key =
        some { value := Value.vnum (toNumber (KVStore.get s now key).2 - 1)
               type := "number", createdAt := now, expiresAt := none }) ∧
    (∀ str, validValue cfg
        (Value.vstr (toStr (KVStore.get s now key).2 ++ str)) = true →
      mapGet (KVStore.append cfg s now key str).1.data key =
        some { value := Value.vstr (toStr (KVStore.get s now key).2 ++ str)
               type := "string", createdAt := now, expiresAt := none }) :=
  ⟨fun hv => incr_stores cfg s now key hk hv,
   fun hv => decr_stores cfg s now key hk hv,
   fun str hv => append_stores cfg s now key str hk hv⟩

/-- Witness for C6 (amended): `incr` on the live TTL-carrying entry. -/
theorem C6_read_modify_overwrite_witness :
    mapGet (KVStore.incr defaultConfig ⟨[("k", liveEntry)]⟩ 10 "k").1.data
      "k" =
    some { value := Value.vnum 2, type := "number", createdAt := 10
           expiresAt := none } := by
  have h := (C6_read_modify_overwrite defaultConfig ⟨[("k", liveEntry)]⟩
    10 "k" (by decide)).1 (by decide)
  have hval : toNumber (KVStore.get ⟨[("k", liveEntry)]⟩ 10 "k").2 + 1 = 2 :=
    by decide
  rw [hval] at h
  exact h

/-- C9 counterexample: on the (empty) key `""` the inner `set` fails
validation, so nothing is ever stored and *every* `incr` call returns 1
— repeated calls are not strictly increasing as the claim states. -/
theorem C9_empty_key_counterexample :
    (KVStore.incr defaultConfig ⟨[]⟩ 0 "").2 = 1 ∧
    (KVStore.incr defaultConfig ⟨[]⟩ 0 "").1.data = [] ∧
    (KVStore.incr defaultConfig
      (KVStore.incr defaultConfig ⟨[]⟩ 0 "").1 0 "").2 = 1 := by
  decide

/-- C9 as amended: `incr`/`decr` always return the current value
coerced to a number (missing or non-numeric reads as 0) plus/minus 1
and never fail; the new value is *stored* — and hence repeated `incr`
calls increase by exactly 1 each — only when the key (and the number's
serialization) pass the inner `set`'s validation. -/
theorem C9_incr_decr_coercion (cfg : KVStoreConfig) (s : KVStore)
    (now : Int) (key : String) :
    ((KVStore.incr cfg s now key).2 =
      toNumber (KVStore.get s now key).2 + 1) ∧
    ((KVStore.decr cfg s now key).2 =
      toNumber (KVStore.get s now key).2 - 1) ∧
    ((KVStore.get s now key).2 = none →
      (KVStore.incr cfg s now key).2 = 1) ∧
    (validKey cfg key = true →
      validValue cfg
        (Value.vnum (toNumber (KVStore.get s now key).2 + 1)) = true →
      ∀ now2, (KVStore.incr cfg (KVStore.incr cfg s now key).1 now2 key).2 =
        toNumber (KVStore.get s now key).2 + 2) := by
  refine ⟨rfl, rfl, ?_, ?_⟩
  · intro hnone
    show toNumber (KVStore.get s now key).2 + 1 = 1
    rw [hnone]
    rfl
  · intro hk hv now2
    have hst := incr_stores cfg s now key hk hv
    have hlive : isExpired
        { value := Value.vnum (toNumber (KVStore.get s now key).2 + 1)
          type := "number", createdAt := now, expiresAt := none } now2 =
        false := rfl
    have hget2 := get_live (KVStore.incr cfg s now key).1 now2 key _ hst hlive
    show toNumber (KVStore.get (KVStore.incr cfg s now key).1 now2 key).2
        + 1 = toNumber (KVStore.get s now key).2 + 2
    rw [hget2]
    show toNumber (some (Value.vnum (toNumber (KVStore.get s now key).2 + 1)))
        + 1 = toNumber (KVStore.get s now key).2 + 2
    simp only [toNumber]
    omega

/-- Witness for C9 (amended): two successive `incr` calls on a fresh
key return 1 and then 2. -/
theorem C9_incr_decr_coercion_witness :
    (KVStore.incr defaultConfig ⟨[]⟩ 0 "k").2 = 1 ∧
    (KVStore.incr defaultConfig
      (KVStore.incr defaultConfig ⟨[]⟩ 0 "k").1 5 "k").2 = 2 := by
  have h := C9_incr_decr_coercion defaultConfig ⟨[]⟩ 0 "k"
  refine ⟨h.2.2.1 (by decide), ?_⟩
  have h2 := h.2.2.2 (by decide) (by decide) 5
  have hval : toNumber (KVStore.get ⟨[]⟩ 0 "k").2 + 2 = 2 := by decide
  rw [hval] at h2
  exact h2

/-- C2 counterexample: the entry under `"k"` is already expired at time
5000, yet `keys` (no pattern) still lists `"k"` — `keys` performs no
liveness filtering, contrary to the claim that no expired key
appears. -/
theorem C2_expired_key_counterexample :
    isExpired demoEntry 5000 = true ∧
    KVStore.keys demoStore none = some ["k"] := by
  decide

/-- C2 as amended: `keys` enumerates exactly the *physically present*
matching keys, live or expired — no expiry check and no removal is
performed; with no pattern, all physically present keys are returned. -/
theorem C2_keys_no_liveness_filter (s : KVStore) :
    KVStore.keys s none = some (s.data.map Prod.fst) ∧
    (∀ p ts, p ≠ "" → parseRegex (translateGlobL p.toList) = some ts →
      ∃ ks, KVStore.keys s (some p) = some ks ∧
        ∀ k, k ∈ ks ↔ k ∈ s.data.map Prod.fst ∧
          reMatch ts k.toList = true) := by
  constructor
  · rfl
  · intro p ts hp hparse
    have hpb : (p == "") = false := beq_eq_false_iff_ne.mpr hp
    refine ⟨(s.data.map Prod.fst).filter (fun k => reMatch ts k.toList),
      ?_, ?_⟩
    · have hparse2 : parseRegex (translateGlobL p.data) = some ts := hparse
      simp [KVStore.keys, hpb, hparse2]
    · intro k
      simp [List.mem_filter]

/-- Witness for C2 (amended): pattern `"user_*"` on a two-key store. -/
theorem C2_keys_no_liveness_filter_witness :
    ∃ ks, KVStore.keys ⟨[("user_1", demoEntry), ("admin_1", demoEntry)]⟩
        (some "user_*") = some ks ∧
      ∀ k, k ∈ ks ↔
        k ∈ ([("user_1", demoEntry), ("admin_1", demoEntry)].map Prod.fst) ∧
        reMatch [RTok.once (RAtom.lit 'u'), RTok.once (RAtom.lit 's'),
          RTok.once (RAtom.lit 'e'), RTok.once (RAtom.lit 'r'),
          RTok.once (RAtom.lit '_'), RTok.star RAtom.anyChar]
          k.toList = true :=
  (C2_keys_no_liveness_filter
    ⟨[("user_1", demoEntry), ("admin_1", demoEntry)]⟩).2 "user_*"
    [RTok.once (RAtom.lit 'u'), RTok.once (RAtom.lit 's'),
     RTok.once (RAtom.lit 'e'), RTok.once (RAtom.lit 'r'),
     RTok.once (RAtom.lit '_'), RTok.star RAtom.anyChar]
    (by decide) (by decide)

/-- C3 counterexample: no escaping happens — the pattern `"a.c"`
selects the key `"axc"` (its `.` acts as a regex wildcard), while the
spec-modelled escaped matcher `specGlobMatch` rejects it, so the
claim's "a pattern character such as `.` matches only itself" fails. -/
theorem C3_no_escaping_counterexample :
    KVStore.keys ⟨[("axc", demoEntry)]⟩ (some "a.c") = some ["axc"] ∧
    specGlobMatch "a.c".toList "axc".toList = false := by
  constructor
  · simp [KVStore.keys, parseRegex, translateGlobL, replaceStar,
      replaceQuestion, regexMeta, patternMeta, reMatch, atomMatch]
  · simp [specGlobMatch]

/-- C3 as amended: the translation performs **no** escaping — only
`* → .*` and `? → .` — so on patterns free of the other regex
metacharacters a key is selected iff the glob-with-dot-wildcard
semantics `dotGlobMatch` accepts it: `*` matches any run while both `?`
and a literal `.` match any single character (a `.` does *not* match
only itself); with no pattern, every key is selected. -/
theorem C3_unescaped_translation (s : KVStore) (p k : String)
    (hp : ∀ c ∈ p.toList, c ∉ patternMeta) (hne : p ≠ "") :
    KVStore.keys s none = some (s.data.map Prod.fst) ∧
    ∃ ks, KVStore.keys s (some p) = some ks ∧
      (k ∈ ks ↔ k ∈ s.data.map Prod.fst ∧
        dotGlobMatch p.toList k.toList = true) := by
  have hparse := parseRegex_translateGlobL p.toList hp
  have hpb : (p == "") = false := beq_eq_false_iff_ne.mpr hne
  refine ⟨rfl, (s.data.map Prod.fst).filter
    (fun x => reMatch (globToks p.toList) x.toList), ?_, ?_⟩
  · have hparse2 : parseRegex (translateGlobL p.data) =
        some (globToks p.data) := hparse
    simp [KVStore.keys, hpb, hparse2]
  · simp [List.mem_filter, reMatch_globToks]

/-- Witness for C3 (amended): pattern `"a.c"` selects key `"axc"`. -/
theorem C3_unescaped_translation_witness :
    ∃ ks, KVStore.keys ⟨[("axc", demoEntry)]⟩ (some "a.c") = some ks ∧
      ("axc" ∈ ks ↔ "axc" ∈ ([("axc", demoEntry)].map Prod.fst) ∧
        dotGlobMatch "a.c".toList "axc".toList = true) :=
  (C3_unescaped_translation ⟨[("axc", demoEntry)]⟩ "a.c" "axc"
    (by decide) (by decide)).2

end KV
